import Mathlib

set_option maxHeartbeats 1000000

set_option maxRecDepth 4000

/-!
Shallow embedding of the nilgiri-performance test-run orchestration and
report-assembly pipeline (runPerformanceTest, getAIAnalysis,
generateCustomHtmlReport) together with a verified model of the
JSON pretty-print / re-parse round trip used for the detailed report copy.

Conventions:
* JavaScript numbers are modelled as rationals, with the special values
  NaN, Infinity and -Infinity tracked explicitly by the JsVal type
  (negative zero is not modelled; no embedded computation depends on it).
* Absent object properties are modelled by Option; optional chaining
  becomes Option.bind.
* A JS object is modelled as an association list keyed by String.
-/

/-!
Round-trip model for the detailed JSON copy (claim C9): the pipeline writes
JSON.stringify(jsonData, null, 2) of the parsed summary and the claim is
that re-parsing this pretty-printed copy recovers the same metrics model.
The metrics model is embedded as a two-level mapping from metric name to a
record of numeric fields; numeric leaves are integers (JavaScript numbers
round-trip exactly through stringify and parse, and the embedding keeps the
numeric domain executable). The printer below mirrors the two-space
pretty-printing of JSON.stringify, and the parser models JSON.parse on this
shape, tolerating whitespace, rejecting escapes (well-formed keys contain
none), and consuming digits greedily.
-/

/-- Character constants written via code points so that the embedding text
stays plain. -/
def qchar : Char := Char.ofNat 34

def bslash : Char := Char.ofNat 92

def lbrace : Char := Char.ofNat 123

def rbrace : Char := Char.ofNat 125

def nlc : Char := Char.ofNat 10

/-- Whitespace test used for String.prototype.trim and JSON whitespace. -/
def isWsChar (c : Char) : Bool := c.toNat = 32 || c.toNat = 10 || c.toNat = 9 || c.toNat = 13

/-- Drop leading whitespace characters. -/
def dropWs : List Char → List Char
  | [] => []
  | c :: cs => if isWsChar c then dropWs cs else c :: cs

/-- Model of String.prototype.trim: strip whitespace at both ends. -/
def trimChars (cs : List Char) : List Char := ((dropWs ((dropWs cs).reverse)).reverse)

def strTrim (s : String) : String := String.mk (trimChars s.data)

/-- Multiplication on ℚ, written through mkRat so that it evaluates inside
decide; proved equal to the Mathlib multiplication below. -/
def qMul (a b : ℚ) : ℚ := mkRat (a.num * b.num) (a.den * b.den)

/-- Division on ℚ through mkRat; proved equal to the Mathlib division below. -/
def qDiv (a b : ℚ) : ℚ :=
  if 0 ≤ b.num then mkRat (a.num * (b.den : ℤ)) (a.den * b.num.natAbs)
  else mkRat (-(a.num * (b.den : ℤ))) (a.den * b.num.natAbs)

/-- Addition on ℚ through mkRat; proved equal to the Mathlib addition below. -/
def qAdd (a b : ℚ) : ℚ := mkRat (a.num * (b.den : ℤ) + b.num * (a.den : ℤ)) (a.den * b.den)

/-- Floor of a rational via floor division of the numerator; proved equal to
the Mathlib floor below. -/
def qFloor (q : ℚ) : Int := q.num.fdiv (q.den : Int)

/-- Model of a JavaScript value as it occurs in the embedded report
computations: undefined, the special floating point values, a finite
number, or a string. -/
inductive JsVal where
  | undef
  | nanV
  | infV
  | negInfV
  | num (q : ℚ)
  | str (s : String)
deriving DecidableEq

def ofOpt : Option ℚ → JsVal
  | none => .undef
  | some q => .num q

/-- JavaScript truthiness: undefined, NaN, 0 and the empty string are falsy. -/
def jsTruthy : JsVal → Bool
  | .undef => false
  | .nanV => false
  | .infV => true
  | .negInfV => true
  | .num q => decide (q ≠ 0)
  | .str s => decide (s ≠ "")

/-- Model of the JavaScript a || b operator. -/
def jsOr (a b : JsVal) : JsVal := if jsTruthy a then a else b

def isDig (c : Char) : Bool := decide (48 ≤ c.toNat) && decide (c.toNat ≤ 57)

def digitVal (c : Char) : Nat := c.toNat - 48

/-- Greedily consume decimal digits, accumulating their value. -/
def parseDigits : Nat → List Char → Nat × List Char
  | acc, [] => (acc, [])
  | acc, c :: cs => if isDig c then parseDigits (acc * 10 + digitVal c) cs else (acc, c :: cs)

/-- ToNumber on strings, restricted to optionally signed integer numerals
(after trimming; the empty string converts to 0, anything else to NaN).
The only strings that reach ToNumber in the embedded report arithmetic are
the sentinel value, which is not a numeral, and this restriction matches
JavaScript on that domain. -/
def strToNumber (s : String) : JsVal :=
  match trimChars s.data with
  | [] => .num 0
  | c :: cs =>
    if c = '-' then
      match parseDigits 0 cs with
      | (n, []) => if cs = [] then .nanV else if cs.all isDig then .num (-(n : ℚ)) else .nanV
      | (_, _ :: _) => .nanV
    else
      match parseDigits 0 (c :: cs) with
      | (n, []) => if (c :: cs).all isDig then .num (n : ℚ) else .nanV
      | (_, _ :: _) => .nanV

/-- ToNumber coercion as used by the arithmetic operators. -/
def jsToNumber : JsVal → JsVal
  | .undef => .nanV
  | .nanV => .nanV
  | .infV => .infV
  | .negInfV => .negInfV
  | .num q => .num q
  | .str s => strToNumber s

/-- JavaScript division, including the NaN and Infinity result cases. -/
def jsDiv (a b : JsVal) : JsVal :=
  match jsToNumber a, jsToNumber b with
  | .num x, .num y =>
    if y = 0 then (if x = 0 then .nanV else if 0 < x then .infV else .negInfV)
    else .num (qDiv x y)
  | .num _, .infV => .num 0
  | .num _, .negInfV => .num 0
  | .infV, .num y => if y < 0 then .negInfV else .infV
  | .negInfV, .num y => if y < 0 then .infV else .negInfV
  | _, _ => .nanV

/-- JavaScript multiplication, including the NaN and Infinity result cases. -/
def jsMul (a b : JsVal) : JsVal :=
  match jsToNumber a, jsToNumber b with
  | .num x, .num y => .num (qMul x y)
  | .num x, .infV => if x = 0 then .nanV else if 0 < x then .infV else .negInfV
  | .num x, .negInfV => if x = 0 then .nanV else if 0 < x then .negInfV else .infV
  | .infV, .num y => if y = 0 then .nanV else if 0 < y then .infV else .negInfV
  | .negInfV, .num y => if y = 0 then .nanV else if 0 < y then .negInfV else .infV
  | .infV, .infV => .infV
  | .infV, .negInfV => .negInfV
  | .negInfV, .infV => .negInfV
  | .negInfV, .negInfV => .infV
  | _, _ => .nanV

def natStr (n : Nat) : String := Nat.repr n

def padZeros (k : Nat) (s : String) : String := String.mk (List.replicate (k - s.length) '0') ++ s

def tenPow (k : Nat) : ℚ := ((10 ^ k : ℕ) : ℚ)

/-- Least power of ten clearing the denominator, when one of at most 10 ^ 40
does; every JavaScript double has a terminating decimal expansion, so on the
image of summary data a witness always exists. -/
def pow10Den (q : ℚ) : Option Nat := (List.range 41).find? (fun k => decide ((qMul q (tenPow k)).den = 1))

def ratStrNonneg (q : ℚ) : String :=
  match pow10Den q with
  | some 0 => natStr q.num.natAbs
  | some (k + 1) =>
    let m : Nat := (qMul q (tenPow (k + 1))).num.natAbs
    natStr (m / 10 ^ (k + 1)) ++ "." ++ padZeros (k + 1) (natStr (m % 10 ^ (k + 1)))
  | none => "<nonterminating>"

/-- Decimal rendering of a finite number, as template-literal coercion
prints it. -/
def ratStr (q : ℚ) : String := if q < 0 then "-" ++ ratStrNonneg (-q) else ratStrNonneg q

/-- String coercion applied by template literals to an interpolated value. -/
def jsDisplay : JsVal → String
  | .undef => "undefined"
  | .nanV => "NaN"
  | .infV => "Infinity"
  | .negInfV => "-Infinity"
  | .num q => ratStr q
  | .str s => s

def fixed2Nonneg (q : ℚ) : String :=
  let n : ℤ := qFloor (qAdd (qMul q 100) (mkRat 1 2))
  let m : Nat := n.toNat
  natStr (m / 100) ++ "." ++ padZeros 2 (natStr (m % 100))

/-- Model of Number.prototype.toFixed(2). The undefined and string cases are
unreachable in the embedded code, where toFixed is applied only to
arithmetic results. -/
def toFixed2 : JsVal → String
  | .nanV => "NaN"
  | .infV => "Infinity"
  | .negInfV => "-Infinity"
  | .undef => "undefined"
  | .str s => s
  | .num q => if q < 0 then "-" ++ fixed2Nonneg (-q) else fixed2Nonneg q

/-- A per-metric statistics record of the engine summary: a mapping from
field name (count, rate, avg, min, med, max, value, passes, fails,
percentile keys such as p(90)) to a numeric value. -/
abbrev Metric := List (String × ℚ)

/-- The summary JSON consumed by the renderer: a top-level metrics mapping. -/
structure Summary where
  metrics : List (String × Metric)
deriving DecidableEq

def lookupKey {α : Type} (l : List (String × α)) (k : String) : Option α :=
  (l.find? (fun p => p.1 == k)).map Prod.snd

def getMetric (s : Summary) (k : String) : Option Metric := lookupKey s.metrics k

def getField (m : Metric) (f : String) : Option ℚ := lookupKey m f

/-- Optional-chained lookup jsonData.metrics?.[k]?.[f]. -/
def getMF (s : Summary) (k f : String) : Option ℚ := (getMetric s k).bind (fun m => getField m f)

/-- Source line 819: jsonData.metrics?.http_reqs?.count || N/A sentinel. -/
def totalRequestsV (s : Summary) : JsVal := jsOr (ofOpt (getMF s "http_reqs" "count")) (.str "N/A")

/-- Source line 820: avg?.toFixed(2) ?? the sentinel. -/
def durationStr (s : Summary) : String :=
  match getMF s "http_req_duration" "avg" with
  | some q => toFixed2 (.num q)
  | none => "N/A"

/-- Source line 821: jsonData.metrics?.vus?.value || the sentinel. -/
def vusV (s : Summary) : JsVal := jsOr (ofOpt (getMF s "vus" "value")) (.str "N/A")

/-- Source line 822: (totalRequests / (iteration_duration max / 1000)).toFixed(2),
with no guard on the denominator. -/
def throughputStr (s : Summary) : String :=
  toFixed2 (jsDiv (totalRequestsV s) (jsDiv (ofOpt (getMF s "iteration_duration" "max")) (.num 1000)))

/-- Source line 823: jsonData.metrics?.iterations?.count || the sentinel. -/
def iterationsV (s : Summary) : JsVal := jsOr (ofOpt (getMF s "iterations" "count")) (.str "N/A")

/-- Source line 824: ((checks?.fails || 0) / totalRequests * 100).toFixed(2)
plus a percent sign, with no guard on the denominator. -/
def errorRateStr (s : Summary) : String :=
  toFixed2 (jsMul (jsDiv (jsOr (ofOpt (getMF s "checks" "fails")) (.num 0)) (totalRequestsV s)) (.num 100)) ++ "%"

/-- Source lines 827-828: checks ? checks.passes : the sentinel. -/
def passCountStr (s : Summary) : String :=
  match getMetric s "checks" with
  | some c => jsDisplay (ofOpt (getField c "passes"))
  | none => "N/A"

/-- Source lines 827-829: checks ? checks.fails : the sentinel. -/
def failCountStr (s : Summary) : String :=
  match getMetric s "checks" with
  | some c => jsDisplay (ofOpt (getField c "fails"))
  | none => "N/A"

/-- Source lines 1173-1180: the duration bar-chart dataset, read under the
exact engine-emitted percentile keys p(90) and p(95). -/
def durationChartData (s : Summary) : List JsVal :=
  [ofOpt (getMF s "http_req_duration" "min"),
   ofOpt (getMF s "http_req_duration" "med"),
   ofOpt (getMF s "http_req_duration" "avg"),
   ofOpt (getMF s "http_req_duration" "max"),
   ofOpt (getMF s "http_req_duration" "p(90)"),
   ofOpt (getMF s "http_req_duration" "p(95)")]

/-- Source lines 1203-1210: the iteration-duration line-chart dataset. -/
def iterationChartData (s : Summary) : List JsVal :=
  [ofOpt (getMF s "iteration_duration" "min"),
   ofOpt (getMF s "iteration_duration" "med"),
   ofOpt (getMF s "iteration_duration" "avg"),
   ofOpt (getMF s "iteration_duration" "max"),
   ofOpt (getMF s "iteration_duration" "p(90)"),
   ofOpt (getMF s "iteration_duration" "p(95)")]

/-- Source lines 463-470 (the superseded runK6Test renderer variant): its
chart dataset reads plain p90 and p95 properties, which a k6 summary does
not carry. -/
def durationChartDataLegacy (s : Summary) : List JsVal :=
  [ofOpt (getMF s "http_req_duration" "min"),
   ofOpt (getMF s "http_req_duration" "med"),
   ofOpt (getMF s "http_req_duration" "avg"),
   ofOpt (getMF s "http_req_duration" "max"),
   ofOpt (getMF s "http_req_duration" "p90"),
   ofOpt (getMF s "http_req_duration" "p95")]

def listStartsWith : List Char → List Char → Bool
  | [], _ => true
  | _ :: _, [] => false
  | p :: ps, c :: cs => p = c && listStartsWith ps cs

/-- Find the first occurrence of pat; return the consumed part (ending with
pat) and the remaining suffix. -/
def splitAfterSub (pat : List Char) : List Char → Option (List Char × List Char)
  | [] => if pat = [] then some ([], []) else none
  | c :: cs =>
    if listStartsWith pat (c :: cs) then some (pat, (c :: cs).drop pat.length)
    else
      match splitAfterSub pat cs with
      | some (a, b) => some (c :: a, b)
      | none => none

def tableOpenChars : List Char := "<table".data

def tableCloseChars : List Char := "</table>".data

/-- Attempt to match the table regex at the head of the input: the literal
table opener, then characters other than a closing angle bracket up to the
first one, then lazily up to the first closing table tag. -/
def matchTableAt (cs : List Char) : Option (List Char) :=
  if listStartsWith tableOpenChars cs then
    match splitAfterSub ['>'] (cs.drop 6) with
    | some (a, cs2) =>
      match splitAfterSub tableCloseChars cs2 with
      | some (b, _) => some (tableOpenChars ++ a ++ b)
      | none => none
    | none => none
  else none

def extractTableAux : List Char → Option (List Char)
  | [] => none
  | c :: cs =>
    match matchTableAt (c :: cs) with
    | some f => some f
    | none => extractTableAux cs

/-- Model of aiAnalysis.match of the table pattern at source line 831:
leftmost match of an HTML table fragment, or none. -/
def extractTable (s : String) : Option String := (extractTableAux s.data).map String.mk

/-- The dynamic content of the rendered HTML document, in template order.
The surrounding static markup and styles are fixed text and are elided. -/
structure Report where
  totalRequests : String
  duration : String
  vus : String
  throughput : String
  iterations : String
  errorRate : String
  passCount : String
  failCount : String
  durationChart : List JsVal
  iterationChart : List JsVal
  aiPanel : String
deriving DecidableEq

/-- Model of generateCustomHtmlReport (source lines 776-1253). The function
computes the summary cards, then extracts the insight table fragment by
indexing the match result at position zero (line 831); when no fragment
matches, that indexing throws, modelled by none. Otherwise the assembled
document is written out, modelled by the Report of its dynamic content. -/
def generateCustomHtmlReport (s : Summary) (aiAnalysis : String) : Option Report :=
  match extractTable aiAnalysis with
  | none => none
  | some tbl => some
    { totalRequests := jsDisplay (totalRequestsV s)
      duration := durationStr s
      vus := jsDisplay (vusV s)
      throughput := throughputStr s
      iterations := jsDisplay (iterationsV s)
      errorRate := errorRateStr s
      passCount := passCountStr s
      failCount := failCountStr s
      durationChart := durationChartData s
      iterationChart := iterationChartData s
      aiPanel := "<div class=\"ai-analysis-table\"> " ++ strTrim tbl ++ " </div>" }

/-- The aireport configuration object of the programmatic entry point. -/
structure AIReportCfg where
  reportPath : Option String
  AiUrl : Option String
  apikey : Option String

/-- The params object accepted by runPerformanceTest. -/
structure RunParams where
  url : String
  aireport : Option AIReportCfg
  detailedReportjson : Option String

/-- What the engine leaves at the temporary summary path: nothing, a file
that is not valid JSON, or a file parsing to a summary. -/
inductive FileContent where
  | invalidJson
  | validJson (s : Summary)
deriving DecidableEq

/-- The external world of one run: whether spawning k6 fails, what summary
file the engine produces when it does run, and the remote AI endpoint
behaviour. -/
structure RunEnv where
  spawnError : Bool
  engineSummary : Option FileContent
  aiFails : Bool
  aiResponse : String

/-- Observable outcome of one run: filesystem contents at the end of the
run plus flags recording which pipeline stages executed, the error log,
and whether the run ended in an uncaught exception. -/
structure RunState where
  scriptWritten : Bool
  tempScriptExists : Bool
  spawned : Bool
  tempReport : Option FileContent
  summaryRead : Bool
  detailedJson : Option Summary
  aiCalled : Bool
  htmlReport : Option Report
  errors : List String
  threw : Bool
deriving DecidableEq

def initialState : RunState :=
  { scriptWritten := false, tempScriptExists := false, spawned := false, tempReport := none,
    summaryRead := false, detailedJson := none, aiCalled := false, htmlReport := none,
    errors := [], threw := false }

/-- JS truthiness of an optional string field: present and nonempty. -/
def optTruthy : Option String → Bool
  | none => false
  | some s => decide (s ≠ "")

/-- Source lines 598-601: the guard on aireport, reportPath, AiUrl, apikey. -/
def configOk (p : RunParams) : Bool :=
  match p.aireport with
  | none => false
  | some a => optTruthy a.reportPath && optTruthy a.AiUrl && optTruthy a.apikey

def configErrorMsg : String := "Missing required AI report parameters (reportPath, AiUrl, or apikey)"

def spawnErrorMsg : String := "Error running k6:"

def aiRequestErrorMsg : String := "Error sending request to AI API:"

def aiAnalysisErrorMsg : String := "Error during AI analysis:"

def aiFailurePlaceholder : String := "Failed to fetch AI analysis."

/-- Model of getAIAnalysis (source lines 675-767): one POST to the remote
endpoint; on any failure the error is logged and the fixed placeholder
string is returned, otherwise the trimmed response text. It never throws. -/
def getAIAnalysis (env : RunEnv) : String :=
  if env.aiFails then aiFailurePlaceholder else strTrim env.aiResponse

/-- Model of runPerformanceTest (source lines 595-666), step by step:
validate the configuration; write the temporary script; spawn k6
synchronously; delete the temporary script; abort on a spawn error; read
and parse the temporary summary (an absent file or invalid JSON throws,
leaving the rest of the function unexecuted); optionally persist the
detailed JSON copy; inside a try block obtain the AI analysis and render
the report (a render crash is caught and logged); delete the temporary
summary. -/
def runPerformanceTest (p : RunParams) (env : RunEnv) : RunState :=
  if configOk p then
    let s1 : RunState := { initialState with scriptWritten := true, tempScriptExists := true }
    let s2 : RunState :=
      { s1 with spawned := true, tempReport := if env.spawnError then none else env.engineSummary }
    let s3 : RunState := { s2 with tempScriptExists := false }
    if env.spawnError then { s3 with errors := s3.errors ++ [spawnErrorMsg] }
    else
      match env.engineSummary with
      | none => { s3 with summaryRead := true, threw := true }
      | some .invalidJson => { s3 with summaryRead := true, threw := true }
      | some (.validJson sum) =>
        let s4 : RunState := { s3 with summaryRead := true }
        let s5 : RunState :=
          if optTruthy p.detailedReportjson then { s4 with detailedJson := some sum } else s4
        let ai : String := getAIAnalysis env
        let s6 : RunState :=
          { s5 with aiCalled := true,
                    errors := s5.errors ++ (if env.aiFails then [aiRequestErrorMsg] else []) }
        let s7 : RunState :=
          match generateCustomHtmlReport sum ai with
          | some rep => { s6 with htmlReport := some rep }
          | none => { s6 with errors := s6.errors ++ [aiAnalysisErrorMsg] }
        { s7 with tempReport := none }
  else { initialState with errors := [configErrorMsg] }

/-- A summary in which the engine recorded zero HTTP requests. -/
def summaryZeroReqs : Summary :=
  ⟨[("http_reqs", [("count", 0), ("rate", 0)]),
    ("checks", [("passes", 0), ("fails", 0)]),
    ("iteration_duration", [("max", 1000)])]⟩

/-- An insight text without any table markup, as the AI failure placeholder
or free prose would be. -/
def insightNoTable : String := "No tabular data is available for this run."

def insightWithTable : String := "Here: <table border=1><tr><td>ok</td></tr></table> done"

def summaryC2 : Summary := ⟨[("http_reqs", [("count", 4)])]⟩

def paramsOk : RunParams :=
  ⟨"https://example.com", some ⟨some "report.html", some "https://ai.example", some "key"⟩,
   some "detailed.json"⟩

def summaryC3 : Summary :=
  ⟨[("http_reqs", [("count", 10)]), ("iteration_duration", [("max", 2000)]),
    ("checks", [("passes", 9), ("fails", 1)])]⟩

def envAIFail : RunEnv := ⟨false, some (.validJson summaryC3), true, ""⟩

def envBadJson : RunEnv := ⟨false, some .invalidJson, false, ""⟩

def summaryC5 : Summary :=
  ⟨[("http_req_duration",
     [("min", 5), ("med", 10), ("avg", 12), ("max", 50), ("p(90)", 30), ("p(95)", 40)])]⟩

def envSpawnFail : RunEnv := ⟨true, none, false, ""⟩

def paramsNoKey : RunParams :=
  ⟨"https://example.com", some ⟨some "report.html", some "https://ai.example", none⟩, none⟩

def summaryNoChecks : Summary := ⟨[("http_reqs", [("count", 7)])]⟩

def extractedTableC8 : String := "<table border=1><tr><td>ok</td></tr></table>"

def summaryZeros : Summary := ⟨[("http_reqs", [("count", 0)]), ("vus", [("value", 0)])]⟩

abbrev JKey := List Char

abbrev JFields := List (JKey × Int)

abbrev JMdl := List (JKey × JFields)

/-- Key characters that print verbatim and parse back: no quote, no
backslash escape. -/
def KeyOk (k : JKey) : Prop := ∀ c ∈ k, c ≠ qchar ∧ c ≠ bslash

/-- A well-formed object key: printable verbatim, nonempty, not shaped like
an array index (JavaScript objects reorder integer-like keys, list order
would not be faithful), and free of control characters that stringify
would escape. -/
def GoodKey (k : JKey) : Prop :=
  k ≠ [] ∧ KeyOk k ∧ (∃ c ∈ k, isDig c = false) ∧ ∀ c ∈ k, 32 ≤ c.toNat

/-- Well-formed metrics model: every key well formed and, at each level,
keys pairwise distinct as in a JavaScript object. -/
def WfMdl (m : JMdl) : Prop :=
  (∀ e ∈ m, GoodKey e.1 ∧ (e.2.map Prod.fst).Nodup ∧ ∀ f ∈ e.2, GoodKey f.1) ∧
  (m.map Prod.fst).Nodup

/-- Decimal digits of a natural number, most significant first. -/
def natDigits (n : Nat) : List Char :=
  if n < 10 then [Char.ofNat (48 + n)]
  else natDigits (n / 10) ++ [Char.ofNat (48 + n % 10)]
decreasing_by exact Nat.div_lt_self (by omega) (by omega)

/-- Decimal notation of an integer as JSON.stringify emits it. -/
def printInt (v : Int) : List Char :=
  if v < 0 then '-' :: natDigits v.natAbs else natDigits v.natAbs

/-- One field line at depth two: four spaces, the quoted key, a colon, a
space and the number. -/
def printField (kv : JKey × Int) : List Char :=
  ' ' :: ' ' :: ' ' :: ' ' :: qchar :: (kv.1 ++ (qchar :: ':' :: ' ' :: printInt kv.2))

/-- Field lines joined by a comma and newline. -/
def printFields : JFields → List Char
  | [] => []
  | [kv] => printField kv
  | kv :: kv2 :: fs => printField kv ++ (',' :: nlc :: printFields (kv2 :: fs))

/-- A statistics record object: braces on their own layout as
JSON.stringify with two-space indent produces at depth one. -/
def printInner (fs : JFields) : List Char :=
  match fs with
  | [] => [lbrace, rbrace]
  | _ => lbrace :: nlc :: (printFields fs ++ (nlc :: ' ' :: ' ' :: [rbrace]))

/-- One metric entry at depth one: two spaces, quoted name, colon, space and
the record object. -/
def printEntry (kv : JKey × JFields) : List Char :=
  ' ' :: ' ' :: qchar :: (kv.1 ++ (qchar :: ':' :: ' ' :: printInner kv.2))

/-- Entries joined by a comma and newline. -/
def printEntries : JMdl → List Char
  | [] => []
  | [e] => printEntry e
  | e :: e2 :: m => printEntry e ++ (',' :: nlc :: printEntries (e2 :: m))

/-- The whole pretty-printed document, as JSON.stringify(model, null, 2). -/
def printMdl (m : JMdl) : List Char :=
  match m with
  | [] => [lbrace, rbrace]
  | _ => lbrace :: nlc :: (printEntries m ++ (nlc :: [rbrace]))

def stringifyModel (m : JMdl) : String := String.mk (printMdl m)

/-- Quoted-string body: read characters until the closing quote; escapes are
rejected (well-formed data never contains them). -/
def parseKeyAux : List Char → Option (JKey × List Char)
  | [] => none
  | c :: cs =>
    if c = qchar then some ([], cs)
    else if c = bslash then none
    else
      match parseKeyAux cs with
      | some (k, rest) => some (c :: k, rest)
      | none => none

def parseKey : List Char → Option (JKey × List Char)
  | [] => none
  | c :: cs => if c = qchar then parseKeyAux cs else none

/-- An optionally signed integer numeral. -/
def parseNum : List Char → Option (Int × List Char)
  | [] => none
  | c :: cs =>
    if c = '-' then
      match cs with
      | [] => none
      | d :: _ =>
        if isDig d then
          match parseDigits 0 cs with
          | (n, rest) => some (-(n : Int), rest)
        else none
    else
      if isDig c then
        match parseDigits 0 (c :: cs) with
        | (n, rest) => some ((n : Int), rest)
      else none

/-- A quoted key, a colon and a numeric value, with whitespace allowed. -/
def parseField (cs : List Char) : Option ((JKey × Int) × List Char) :=
  match parseKey (dropWs cs) with
  | none => none
  | some (k, cs1) =>
    match dropWs cs1 with
    | [] => none
    | c :: cs2 =>
      if c = ':' then
        match parseNum (dropWs cs2) with
        | none => none
        | some (v, cs3) => some ((k, v), cs3)
      else none

/-- After one field: either a comma and a further field, or the closing
brace. The fuel argument bounds the number of fields. -/
def parseFieldsTail : Nat → List Char → Option (JFields × List Char)
  | 0, _ => none
  | fuel + 1, cs =>
    match dropWs cs with
    | [] => none
    | c :: cs1 =>
      if c = ',' then
        match parseField cs1 with
        | none => none
        | some (kv, cs2) =>
          match parseFieldsTail fuel cs2 with
          | none => none
          | some (fs, cs3) => some (kv :: fs, cs3)
      else if c = rbrace then some ([], cs1)
      else none

/-- A statistics record object. -/
def parseInner (fuel : Nat) (cs : List Char) : Option (JFields × List Char) :=
  match dropWs cs with
  | [] => none
  | c :: cs1 =>
    if c = lbrace then
      match dropWs cs1 with
      | [] => none
      | d :: cs2 =>
        if d = rbrace then some ([], cs2)
        else
          match parseField cs1 with
          | none => none
          | some (kv, cs3) =>
            match parseFieldsTail fuel cs3 with
            | none => none
            | some (fs, cs4) => some (kv :: fs, cs4)
    else none

/-- A metric name and its record object. -/
def parseEntry (fuel : Nat) (cs : List Char) : Option ((JKey × JFields) × List Char) :=
  match parseKey (dropWs cs) with
  | none => none
  | some (k, cs1) =>
    match dropWs cs1 with
    | [] => none
    | c :: cs2 =>
      if c = ':' then
        match parseInner fuel cs2 with
        | none => none
        | some (fs, cs3) => some ((k, fs), cs3)
      else none

/-- After one entry: either a comma and a further entry, or the closing
brace. -/
def parseEntriesTail : Nat → List Char → Option (JMdl × List Char)
  | 0, _ => none
  | fuel + 1, cs =>
    match dropWs cs with
    | [] => none
    | c :: cs1 =>
      if c = ',' then
        match parseEntry fuel cs1 with
        | none => none
        | some (e, cs2) =>
          match parseEntriesTail fuel cs2 with
          | none => none
          | some (m, cs3) => some (e :: m, cs3)
      else if c = rbrace then some ([], cs1)
      else none

/-- The top-level object of the document. -/
def parseTop (fuel : Nat) (cs : List Char) : Option (JMdl × List Char) :=
  match dropWs cs with
  | [] => none
  | c :: cs1 =>
    if c = lbrace then
      match dropWs cs1 with
      | [] => none
      | d :: cs2 =>
        if d = rbrace then some ([], cs2)
        else
          match parseEntry fuel cs1 with
          | none => none
          | some (e, cs3) =>
            match parseEntriesTail fuel cs3 with
            | none => none
            | some (m, cs4) => some (e :: m, cs4)
    else none

/-- Model of JSON.parse on the metrics-model shape: parse the top-level
object and require only trailing whitespace. -/
def parseModel (s : String) : Option JMdl :=
  match parseTop (s.data.length + 1) s.data with
  | some (m, rest) => if dropWs rest = [] then some m else none
  | none => none

/-- Fuel requirement of a model: one unit per entry and per field. -/
def needE : JMdl → Nat
  | [] => 0
  | e :: m => e.2.length + 1 + needE m

def digitHead : List Char → Bool
  | [] => false
  | c :: _ => isDig c

def sepFields : JFields → List Char
  | [] => []
  | fs@(_ :: _) => ',' :: nlc :: printFields fs

def sepEntries : JMdl → List Char
  | [] => []
  | m@(_ :: _) => ',' :: nlc :: printEntries m

instance decKeyOk : DecidablePred KeyOk := fun k => by
  unfold KeyOk
  infer_instance

instance decGoodKey : DecidablePred GoodKey := fun k => by
  unfold GoodKey
  infer_instance

instance decWfMdl : DecidablePred WfMdl := fun m => by
  unfold WfMdl
  infer_instance

/-- A concrete k6-shaped metrics model for the round-trip witness. -/
def mdlW : JMdl :=
  [("http_reqs".data, [("count".data, 120), ("rate".data, 4)]),
   ("http_req_duration".data,
    [("min".data, 5), ("med".data, 10), ("avg".data, 12), ("max".data, 50),
     ("p(90)".data, 30), ("p(95)".data, 40)]),
   ("checks".data, [("passes".data, 118), ("fails".data, 2)]),
   ("vus".data, [])]

theorem num_eq_mul_den (q : ℚ) : (q.num : ℚ) = q * q.den :=
  (div_eq_iff (by exact_mod_cast q.den_nz)).mp (Rat.num_div_den q)

/-- The evaluation-friendly multiplication agrees with the field one. -/
theorem qMul_eq (a b : ℚ) : qMul a b = a * b := by
  rw [qMul, Rat.mkRat_eq_divInt, Rat.divInt_eq_div]
  conv_rhs => rw [← Rat.num_div_den a, ← Rat.num_div_den b]
  rw [div_mul_div_comm]
  push_cast
  ring_nf

/-- The evaluation-friendly addition agrees with the field one. -/
theorem qAdd_eq (a b : ℚ) : qAdd a b = a + b := by
  rw [qAdd, Rat.mkRat_eq_divInt, Rat.divInt_eq_div]
  conv_rhs => rw [← Rat.num_div_den a, ← Rat.num_div_den b]
  rw [div_add_div _ _ (by exact_mod_cast a.den_nz) (by exact_mod_cast b.den_nz)]
  push_cast
  ring_nf

/-- The evaluation-friendly division agrees with the field one. -/
theorem qDiv_eq (a b : ℚ) : qDiv a b = a / b := by
  rcases eq_or_ne b 0 with hb | hb
  · subst hb
    simp [qDiv, Rat.mkRat_eq_divInt]
  · have hbn : b.num ≠ 0 := Rat.num_ne_zero.mpr hb
    have hbnq : (b.num : ℚ) ≠ 0 := by exact_mod_cast hbn
    have hda : (a.den : ℚ) ≠ 0 := by exact_mod_cast a.den_nz
    have hden : (a.den : ℚ) * (b.num : ℚ) ≠ 0 := mul_ne_zero hda hbnq
    rcases lt_or_le b.num 0 with hneg | hpos
    · rw [qDiv, if_neg (not_le.mpr hneg), Rat.mkRat_eq_divInt, Rat.divInt_eq_div]
      push_cast [Int.cast_natAbs]
      rw [abs_of_neg (by exact_mod_cast hneg), mul_neg, neg_div_neg_eq]
      rw [div_eq_div_iff hden hb]
      rw [num_eq_mul_den a, num_eq_mul_den b]
      ring
    · rw [qDiv, if_pos hpos, Rat.mkRat_eq_divInt, Rat.divInt_eq_div]
      push_cast [Int.cast_natAbs]
      rw [abs_of_nonneg (by exact_mod_cast hpos)]
      rw [div_eq_div_iff hden hb]
      rw [num_eq_mul_den a, num_eq_mul_den b]
      ring

/-- The evaluation-friendly floor agrees with the Mathlib floor. -/
theorem qFloor_eq (q : ℚ) : qFloor q = ⌊q⌋ := by
  rw [qFloor, Rat.floor_def, Int.fdiv_eq_ediv _ (by positivity)]

/-- Claim C1: the spec requires the derived error-rate and throughput
figures to fall back to the sentinel whenever the denominator is zero or
absent. The code does not guard the denominator: with
metrics.http_reqs.count equal to 0, totalRequests becomes the sentinel
string, the division coerces it to NaN, and the rendered error rate is the
string NaN% rather than the sentinel; the throughput card likewise renders
NaN. -/
theorem c1_error_rate_nan_at_zero_requests :
    errorRateStr summaryZeroReqs = "NaN%" ∧ throughputStr summaryZeroReqs = "NaN" := by
  decide

/-- Claim C2: the spec requires the renderer to fall back to the raw text
when no table fragment matches. The code indexes the match result at
position zero without a null check (line 831), so rendering an insight
without a table fragment throws instead of falling back; with a fragment
present the render completes. -/
theorem c2_render_throws_without_table_fragment :
    generateCustomHtmlReport summaryC2 insightNoTable = none ∧
    (generateCustomHtmlReport summaryC2 insightWithTable).isSome = true := by
  decide

/-- Claim C3: the spec requires that when the remote analysis call fails the
run still produces an HTML report carrying the placeholder text. In the
code getAIAnalysis does return the placeholder, but the renderer then
throws on the placeholder (no table fragment), the surrounding catch
swallows the exception, and no HTML report is ever written: the run
completes without throwing, yet with no report file. -/
theorem c3_ai_failure_leaves_no_report :
    (runPerformanceTest paramsOk envAIFail).threw = false ∧
    (runPerformanceTest paramsOk envAIFail).htmlReport = none ∧
    (runPerformanceTest paramsOk envAIFail).errors = [aiRequestErrorMsg, aiAnalysisErrorMsg] := by
  decide

/-- Claim C4: the spec requires both temporary files to be removed on every
exit path, including a parse failure. When the engine leaves a summary file
that is not valid JSON, JSON.parse throws before the summary unlink runs,
so the temporary summary file persists on disk after the run. -/
theorem c4_invalid_summary_leaves_temp_file :
    (runPerformanceTest paramsOk envBadJson).threw = true ∧
    (runPerformanceTest paramsOk envBadJson).tempReport = some .invalidJson := by
  decide

/-- Claim C5: for a summary whose http_req_duration record carries
min 5, med 10, avg 12, max 50, p(90) 30 and p(95) 40, the rendered duration
chart dataset is exactly the six values in that order, read under the exact
engine-emitted percentile keys. -/
theorem c5_duration_chart_exact_dataset
    (s : Summary)
    (hmin : getMF s "http_req_duration" "min" = some 5)
    (hmed : getMF s "http_req_duration" "med" = some 10)
    (havg : getMF s "http_req_duration" "avg" = some 12)
    (hmax : getMF s "http_req_duration" "max" = some 50)
    (hp90 : getMF s "http_req_duration" "p(90)" = some 30)
    (hp95 : getMF s "http_req_duration" "p(95)" = some 40) :
    durationChartData s =
      [.num 5, .num 10, .num 12, .num 50, .num 30, .num 40] := by
  simp [durationChartData, hmin, hmed, havg, hmax, hp90, hp95, ofOpt]

/-- Witness for C5 at a concrete summary. -/
theorem c5_duration_chart_exact_dataset_witness :
    getMF summaryC5 "http_req_duration" "p(90)" = some 30 ∧
    getMF summaryC5 "http_req_duration" "p(95)" = some 40 ∧
    durationChartData summaryC5 =
      [.num 5, .num 10, .num 12, .num 50, .num 30, .num 40] :=
  ⟨by decide, by decide,
   c5_duration_chart_exact_dataset summaryC5 (by decide) (by decide) (by decide) (by decide)
     (by decide) (by decide)⟩

/-- Claim C6: when spawning the engine fails, the orchestrator logs the
failure and returns: the summary is never read, the AI stage and renderer
are never invoked, and nothing is thrown. -/
theorem c6_spawn_failure_aborts_pipeline
    (p : RunParams) (env : RunEnv) (hc : configOk p = true) (hs : env.spawnError = true) :
    (runPerformanceTest p env).errors = [spawnErrorMsg] ∧
    (runPerformanceTest p env).summaryRead = false ∧
    (runPerformanceTest p env).aiCalled = false ∧
    (runPerformanceTest p env).htmlReport = none ∧
    (runPerformanceTest p env).threw = false := by
  simp [runPerformanceTest, hc, hs, initialState]

/-- Witness for C6 at a concrete configuration and environment. -/
theorem c6_spawn_failure_aborts_pipeline_witness :
    configOk paramsOk = true ∧ envSpawnFail.spawnError = true ∧
    ((runPerformanceTest paramsOk envSpawnFail).errors = [spawnErrorMsg] ∧
     (runPerformanceTest paramsOk envSpawnFail).summaryRead = false ∧
     (runPerformanceTest paramsOk envSpawnFail).aiCalled = false ∧
     (runPerformanceTest paramsOk envSpawnFail).htmlReport = none ∧
     (runPerformanceTest paramsOk envSpawnFail).threw = false) :=
  ⟨by decide, by decide, c6_spawn_failure_aborts_pipeline paramsOk envSpawnFail (by decide) (by decide)⟩

/-- Claim C7: a params object missing a required aireport field makes the
entry point log the configuration error and return before any pipeline
work: no script is written, no subprocess is spawned, nothing is thrown. -/
theorem c7_missing_config_fails_fast
    (p : RunParams) (env : RunEnv) (hc : configOk p = false) :
    (runPerformanceTest p env).errors = [configErrorMsg] ∧
    (runPerformanceTest p env).scriptWritten = false ∧
    (runPerformanceTest p env).spawned = false ∧
    (runPerformanceTest p env).threw = false := by
  simp [runPerformanceTest, hc, initialState]

/-- Witness for C7 with the apikey field absent. -/
theorem c7_missing_config_fails_fast_witness :
    configOk paramsNoKey = false ∧
    ((runPerformanceTest paramsNoKey envSpawnFail).errors = [configErrorMsg] ∧
     (runPerformanceTest paramsNoKey envSpawnFail).scriptWritten = false ∧
     (runPerformanceTest paramsNoKey envSpawnFail).spawned = false ∧
     (runPerformanceTest paramsNoKey envSpawnFail).threw = false) :=
  ⟨by decide, c7_missing_config_fails_fast paramsNoKey envSpawnFail (by decide)⟩

/-- Claim C8: for a summary without a checks metric, the renderer (given an
insight whose table fragment extracts) completes, and both the pass-count
and fail-count cards render the sentinel. -/
theorem c8_missing_checks_renders_sentinel
    (s : Summary) (ai tbl : String)
    (hch : getMetric s "checks" = none)
    (hex : extractTable ai = some tbl) :
    (generateCustomHtmlReport s ai).isSome = true ∧
    (generateCustomHtmlReport s ai).map Report.passCount = some "N/A" ∧
    (generateCustomHtmlReport s ai).map Report.failCount = some "N/A" := by
  simp [generateCustomHtmlReport, hex, passCountStr, failCountStr, hch]

/-- Witness for C8 at a concrete summary and insight. -/
theorem c8_missing_checks_renders_sentinel_witness :
    getMetric summaryNoChecks "checks" = none ∧
    extractTable insightWithTable = some extractedTableC8 ∧
    ((generateCustomHtmlReport summaryNoChecks insightWithTable).isSome = true ∧
     (generateCustomHtmlReport summaryNoChecks insightWithTable).map Report.passCount = some "N/A" ∧
     (generateCustomHtmlReport summaryNoChecks insightWithTable).map Report.failCount = some "N/A") :=
  ⟨by decide, by decide,
   c8_missing_checks_renders_sentinel summaryNoChecks insightWithTable extractedTableC8
     (by decide) (by decide)⟩

/-- Claim C10: the absent-metric fallbacks use truthiness rather than a
presence check, so a metric present with value 0 is coerced to the
sentinel: with http_reqs.count equal to 0 the Total Requests card renders
the sentinel, and with vus.value equal to 0 the Virtual Users card renders
the sentinel, while a genuine zero would display as 0. -/
theorem c10_zero_value_coerced_to_sentinel
    (s : Summary) :
    (getMF s "http_reqs" "count" = some 0 → jsDisplay (totalRequestsV s) = "N/A") ∧
    (getMF s "vus" "value" = some 0 → jsDisplay (vusV s) = "N/A") ∧
    jsDisplay (JsVal.num 0) = "0" := by
  refine ⟨?_, ?_, ?_⟩
  · intro h
    simp [totalRequestsV, h, ofOpt, jsOr, jsTruthy, jsDisplay]
  · intro h
    simp [vusV, h, ofOpt, jsOr, jsTruthy, jsDisplay]
  · decide

/-- Witness for C10 at a concrete summary with both zero values present. -/
theorem c10_zero_value_coerced_to_sentinel_witness :
    getMF summaryZeros "http_reqs" "count" = some 0 ∧
    jsDisplay (totalRequestsV summaryZeros) = "N/A" ∧
    getMF summaryZeros "vus" "value" = some 0 ∧
    jsDisplay (vusV summaryZeros) = "N/A" :=
  ⟨by decide, (c10_zero_value_coerced_to_sentinel summaryZeros).1 (by decide),
   by decide, (c10_zero_value_coerced_to_sentinel summaryZeros).2.1 (by decide)⟩

theorem dropWs_space (cs : List Char) : dropWs (' ' :: cs) = dropWs cs := rfl

theorem dropWs_nl (cs : List Char) : dropWs (nlc :: cs) = dropWs cs := rfl

theorem dropWs_cons_ws {c : Char} (h : isWsChar c = true) (cs : List Char) :
    dropWs (c :: cs) = dropWs cs := by
  simp [dropWs, h]

theorem dropWs_cons_not {c : Char} (h : isWsChar c = false) (cs : List Char) :
    dropWs (c :: cs) = c :: cs := by
  simp [dropWs, h]

theorem dropWs_qchar (cs : List Char) : dropWs (qchar :: cs) = qchar :: cs := rfl

theorem dropWs_colon (cs : List Char) : dropWs (':' :: cs) = ':' :: cs := rfl

theorem dropWs_comma (cs : List Char) : dropWs (',' :: cs) = ',' :: cs := rfl

theorem dropWs_lbrace (cs : List Char) : dropWs (lbrace :: cs) = lbrace :: cs := rfl

theorem dropWs_rbrace (cs : List Char) : dropWs (rbrace :: cs) = rbrace :: cs := rfl

theorem dropWs_minus (cs : List Char) : dropWs ('-' :: cs) = '-' :: cs := rfl

theorem not_ws_of_isDig {c : Char} (h : isDig c = true) : isWsChar c = false := by
  simp only [isDig, Bool.and_eq_true, decide_eq_true_eq] at h
  simp only [isWsChar, Bool.or_eq_false_iff, decide_eq_false_iff_not]
  omega

theorem isDig_ne_minus {c : Char} (h : isDig c = true) : ¬ c = '-' := by
  intro heq
  subst heq
  exact absurd h (by decide)

theorem digitChar_isDig {d : Nat} (h : d < 10) :
    isDig (Char.ofNat (48 + d)) = true ∧ digitVal (Char.ofNat (48 + d)) = d := by
  interval_cases d <;> exact ⟨rfl, rfl⟩

theorem natDigits_ne_nil (n : Nat) : natDigits n ≠ [] := by
  rw [natDigits]
  split <;> simp

theorem natDigits_all (n : Nat) : ∀ c ∈ natDigits n, isDig c = true := by
  induction n using Nat.strong_induction_on with
  | _ n ih =>
    rw [natDigits]
    split
    · next h =>
      intro c hc
      simp only [List.mem_singleton] at hc
      subst hc
      exact (digitChar_isDig h).1
    · next h =>
      intro c hc
      rw [List.mem_append] at hc
      rcases hc with hc | hc
      · exact ih (n / 10) (Nat.div_lt_self (by omega) (by omega)) c hc
      · simp only [List.mem_singleton] at hc
        subst hc
        exact (digitChar_isDig (Nat.mod_lt _ (by omega))).1

theorem natDigits_head (n : Nat) :
    ∃ c cs, natDigits n = c :: cs ∧ isDig c = true := by
  obtain ⟨c, cs, heq⟩ := List.exists_cons_of_ne_nil (natDigits_ne_nil n)
  exact ⟨c, cs, heq, natDigits_all n c (by rw [heq]; exact List.mem_cons_self c cs)⟩

theorem parseDigits_stop {rest : List Char} (acc : Nat) (hr : digitHead rest = false) :
    parseDigits acc rest = (acc, rest) := by
  cases rest with
  | nil => rfl
  | cons c cs =>
    simp only [digitHead] at hr
    simp [parseDigits, hr]

theorem parseDigits_append (n : Nat) : ∀ (acc : Nat) (rest : List Char),
    parseDigits acc (natDigits n ++ rest) =
      parseDigits (acc * 10 ^ (natDigits n).length + n) rest := by
  induction n using Nat.strong_induction_on with
  | _ n ih =>
    intro acc rest
    rw [natDigits]
    split
    · next h =>
      have hd := digitChar_isDig h
      simp [parseDigits, hd.1, hd.2, pow_one]
    · next h =>
      rw [List.append_assoc, List.singleton_append]
      rw [ih (n / 10) (Nat.div_lt_self (by omega) (by omega))]
      have hd := digitChar_isDig (show n % 10 < 10 from Nat.mod_lt _ (by omega))
      simp only [parseDigits, hd.1, hd.2, if_true]
      congr 1
      rw [List.length_append, List.length_singleton, pow_succ, ← mul_assoc]
      generalize acc * 10 ^ (natDigits (n / 10)).length = x
      omega

theorem natDigits_rt {rest : List Char} (n : Nat) (hr : digitHead rest = false) :
    parseDigits 0 (natDigits n ++ rest) = (n, rest) := by
  rw [parseDigits_append, parseDigits_stop _ hr]
  simp

theorem dropWs_printInt (v : Int) (X : List Char) :
    dropWs (printInt v ++ X) = printInt v ++ X := by
  rw [printInt]
  split
  · simp only [List.cons_append]
    exact dropWs_minus _
  · obtain ⟨c, cs, heq, hcd⟩ := natDigits_head v.natAbs
    rw [heq]
    simp only [List.cons_append]
    exact dropWs_cons_not (not_ws_of_isDig hcd) _

theorem parseNum_rt (v : Int) {rest : List Char} (hr : digitHead rest = false) :
    parseNum (printInt v ++ rest) = some (v, rest) := by
  obtain ⟨c, cs, heq, hcd⟩ := natDigits_head v.natAbs
  have hparse := natDigits_rt v.natAbs hr
  rw [heq] at hparse
  simp only [List.cons_append] at hparse
  rw [printInt]
  split
  · next hv =>
    rw [heq]
    simp only [List.cons_append]
    simp only [parseNum, if_pos rfl, hcd, if_true, hparse]
    have : -((v.natAbs : Nat) : Int) = v := by omega
    rw [this]
  · next hv =>
    rw [heq]
    simp only [List.cons_append]
    simp only [parseNum, if_neg (isDig_ne_minus hcd), hcd, if_true, hparse]
    have : ((v.natAbs : Nat) : Int) = v := by omega
    rw [this]

theorem isWs_nl : isWsChar nlc = true := rfl

theorem parseKeyAux_rt (k : JKey) {rest : List Char} (hk : KeyOk k) :
    parseKeyAux (k ++ (qchar :: rest)) = some (k, rest) := by
  induction k with
  | nil => simp [parseKeyAux]
  | cons c k ih =>
    have hc := hk c (List.mem_cons_self c k)
    have hk' : KeyOk k := fun d hd => hk d (List.mem_cons_of_mem _ hd)
    simp only [List.cons_append, parseKeyAux, if_neg hc.1, if_neg hc.2, List.append_eq]
    rw [ih hk']

theorem parseKey_rt (k : JKey) {rest : List Char} (hk : KeyOk k) :
    parseKey (qchar :: (k ++ (qchar :: rest))) = some (k, rest) := by
  simp [parseKey, parseKeyAux_rt k hk]

theorem parseField_cons_ws {c : Char} (h : isWsChar c = true) (cs : List Char) :
    parseField (c :: cs) = parseField cs := by
  simp only [parseField, dropWs_cons_ws h]

theorem parseField_rt (kv : JKey × Int) {rest : List Char}
    (hk : KeyOk kv.1) (hr : digitHead rest = false) :
    parseField (printField kv ++ rest) = some (kv, rest) := by
  have hshape : printField kv ++ rest
      = ' ' :: ' ' :: ' ' :: ' ' ::
        qchar :: (kv.1 ++ (qchar :: ':' :: ' ' :: (printInt kv.2 ++ rest))) := by
    simp [printField]
  rw [hshape]
  simp only [parseField, dropWs_space, dropWs_qchar, parseKey_rt kv.1 hk, dropWs_colon,
    dropWs_printInt, parseNum_rt kv.2 hr, if_true, eq_self_iff_true, Prod.mk.eta]

theorem printFields_cons_append (f : JKey × Int) (fs : JFields) (X : List Char) :
    printFields (f :: fs) ++ X = printField f ++ (sepFields fs ++ X) := by
  cases fs <;> simp [printFields, sepFields]

theorem digitHead_sepFields (fs : JFields) (X : List Char) :
    digitHead (sepFields fs ++ (nlc :: X)) = false := by
  cases fs
  · simp only [sepFields, List.nil_append]
    rfl
  · simp only [sepFields, List.cons_append]
    rfl

theorem parseFieldsTail_rt (fs : JFields) (hwf : ∀ kv ∈ fs, KeyOk kv.1) :
    ∀ (fuel : Nat) (rest : List Char), fs.length < fuel →
    parseFieldsTail fuel (sepFields fs ++ (nlc :: ' ' :: ' ' :: rbrace :: rest)) =
      some (fs, rest) := by
  induction fs with
  | nil =>
    intro fuel rest hfuel
    cases fuel with
    | zero => omega
    | succ fuel =>
      simp [sepFields, parseFieldsTail, dropWs_nl, dropWs_space, dropWs_rbrace]
      intro h
      exact absurd h (by decide)
  | cons f fs ih =>
    intro fuel rest hfuel
    cases fuel with
    | zero => omega
    | succ fuel =>
      have hkf : KeyOk f.1 := hwf f (List.mem_cons_self f fs)
      have hwf' : ∀ kv ∈ fs, KeyOk kv.1 := fun kv h => hwf kv (List.mem_cons_of_mem _ h)
      have hlen : fs.length < fuel := by
        simp only [List.length_cons] at hfuel
        omega
      simp only [sepFields, List.cons_append, parseFieldsTail, dropWs_comma, if_true,
        eq_self_iff_true]
      rw [parseField_cons_ws isWs_nl]
      rw [printFields_cons_append]
      simp [parseField_rt f hkf (digitHead_sepFields fs _), ih hwf' fuel rest hlen]

theorem isWs_space : isWsChar ' ' = true := rfl

theorem dropWs_printField_append (kv : JKey × Int) (X : List Char) :
    dropWs (printField kv ++ X) =
      qchar :: ((kv.1 ++ (qchar :: ':' :: ' ' :: printInt kv.2)) ++ X) := by
  simp only [printField, List.cons_append]
  rw [dropWs_space, dropWs_space, dropWs_space, dropWs_space, dropWs_qchar]

theorem parseInner_cons_ws {c : Char} (h : isWsChar c = true) (fuel : Nat) (cs : List Char) :
    parseInner fuel (c :: cs) = parseInner fuel cs := by
  simp only [parseInner, dropWs_cons_ws h]

theorem parseInner_rt (fs : JFields) (hwf : ∀ kv ∈ fs, KeyOk kv.1) (fuel : Nat)
    (rest : List Char) (hfuel : fs.length < fuel) :
    parseInner fuel (printInner fs ++ rest) = some (fs, rest) := by
  cases fs with
  | nil =>
    simp [printInner, parseInner, dropWs_lbrace, dropWs_rbrace]
  | cons f fs' =>
    have hkf : KeyOk f.1 := hwf f (List.mem_cons_self f fs')
    have hwf' : ∀ kv ∈ fs', KeyOk kv.1 := fun kv h => hwf kv (List.mem_cons_of_mem _ h)
    have hlen : fs'.length < fuel := by
      simp only [List.length_cons] at hfuel
      omega
    have hshape : printInner (f :: fs') ++ rest
        = lbrace :: nlc :: (printFields (f :: fs') ++ (nlc :: ' ' :: ' ' :: rbrace :: rest)) := by
      simp [printInner]
    rw [hshape]
    simp only [parseInner, dropWs_lbrace, dropWs_nl]
    rw [printFields_cons_append, dropWs_printField_append, parseField_cons_ws isWs_nl]
    simp [parseField_rt f hkf (digitHead_sepFields fs' _),
      parseFieldsTail_rt fs' hwf' fuel rest hlen]
    decide

theorem parseEntry_cons_ws {c : Char} (h : isWsChar c = true) (fuel : Nat) (cs : List Char) :
    parseEntry fuel (c :: cs) = parseEntry fuel cs := by
  simp only [parseEntry, dropWs_cons_ws h]

theorem parseEntry_rt (e : JKey × JFields) {rest : List Char} (hk : KeyOk e.1)
    (hwf : ∀ kv ∈ e.2, KeyOk kv.1) (fuel : Nat) (hfuel : e.2.length < fuel) :
    parseEntry fuel (printEntry e ++ rest) = some (e, rest) := by
  have hshape : printEntry e ++ rest
      = ' ' :: ' ' :: qchar :: (e.1 ++ (qchar :: ':' :: ' ' :: (printInner e.2 ++ rest))) := by
    simp [printEntry]
  rw [hshape]
  simp only [parseEntry, dropWs_space, dropWs_qchar, parseKey_rt e.1 hk, dropWs_colon]
  rw [parseInner_cons_ws isWs_space]
  simp [parseInner_rt e.2 hwf fuel rest hfuel]

theorem printEntries_cons_append (e : JKey × JFields) (m : JMdl) (X : List Char) :
    printEntries (e :: m) ++ X = printEntry e ++ (sepEntries m ++ X) := by
  cases m <;> simp [printEntries, sepEntries]

theorem dropWs_printEntry_append (e : JKey × JFields) (X : List Char) :
    dropWs (printEntry e ++ X) =
      qchar :: ((e.1 ++ (qchar :: ':' :: ' ' :: printInner e.2)) ++ X) := by
  simp only [printEntry, List.cons_append]
  rw [dropWs_space, dropWs_space, dropWs_qchar]

theorem parseEntriesTail_rt (m : JMdl)
    (hwf : ∀ e ∈ m, KeyOk e.1 ∧ ∀ kv ∈ e.2, KeyOk kv.1) :
    ∀ (fuel : Nat) (rest : List Char), needE m < fuel →
    parseEntriesTail fuel (sepEntries m ++ (nlc :: rbrace :: rest)) = some (m, rest) := by
  induction m with
  | nil =>
    intro fuel rest hfuel
    cases fuel with
    | zero => omega
    | succ fuel =>
      simp [sepEntries, parseEntriesTail, dropWs_nl, dropWs_rbrace]
      intro h
      exact absurd h (by decide)
  | cons e m ih =>
    intro fuel rest hfuel
    cases fuel with
    | zero => omega
    | succ fuel =>
      have hke := hwf e (List.mem_cons_self e m)
      have hwf' : ∀ x ∈ m, KeyOk x.1 ∧ ∀ kv ∈ x.2, KeyOk kv.1 :=
        fun x h => hwf x (List.mem_cons_of_mem _ h)
      have hlenE : e.2.length < fuel := by
        simp only [needE] at hfuel
        omega
      have hlenM : needE m < fuel := by
        simp only [needE] at hfuel
        omega
      simp only [sepEntries, List.cons_append, parseEntriesTail, dropWs_comma, if_true,
        eq_self_iff_true]
      rw [parseEntry_cons_ws isWs_nl]
      rw [printEntries_cons_append]
      simp [parseEntry_rt e hke.1 hke.2 fuel hlenE, ih hwf' fuel rest hlenM]

theorem parseTop_rt (m : JMdl)
    (hwf : ∀ e ∈ m, KeyOk e.1 ∧ ∀ kv ∈ e.2, KeyOk kv.1) (fuel : Nat)
    (rest : List Char) (hfuel : needE m < fuel) :
    parseTop fuel (printMdl m ++ rest) = some (m, rest) := by
  cases m with
  | nil =>
    simp [printMdl, parseTop, dropWs_lbrace, dropWs_rbrace]
  | cons e m' =>
    have hke := hwf e (List.mem_cons_self e m')
    have hwf' : ∀ x ∈ m', KeyOk x.1 ∧ ∀ kv ∈ x.2, KeyOk kv.1 :=
      fun x h => hwf x (List.mem_cons_of_mem _ h)
    have hlenE : e.2.length < fuel := by
      simp only [needE] at hfuel
      omega
    have hlenM : needE m' < fuel := by
      simp only [needE] at hfuel
      omega
    have hshape : printMdl (e :: m') ++ rest
        = lbrace :: nlc :: (printEntries (e :: m') ++ (nlc :: rbrace :: rest)) := by
      simp [printMdl]
    rw [hshape]
    simp only [parseTop, dropWs_lbrace, dropWs_nl]
    rw [printEntries_cons_append, dropWs_printEntry_append, parseEntry_cons_ws isWs_nl]
    simp [parseEntry_rt e hke.1 hke.2 fuel hlenE,
      parseEntriesTail_rt m' hwf' fuel rest hlenM]
    decide

theorem len_printField (kv : JKey × Int) : 1 ≤ (printField kv).length := by
  simp [printField]

theorem len_printFields (fs : JFields) : fs.length ≤ (printFields fs).length := by
  induction fs with
  | nil => simp [printFields]
  | cons f fs ih =>
    cases fs with
    | nil =>
      have := len_printField f
      simp only [printFields, List.length_cons, List.length_nil]
      omega
    | cons g gs =>
      have h1 := len_printField f
      simp only [printFields, List.length_append, List.length_cons] at ih ⊢
      omega

theorem len_printInner (fs : JFields) : fs.length + 1 ≤ (printInner fs).length := by
  cases fs with
  | nil => simp [printInner]
  | cons f fs' =>
    have := len_printFields (f :: fs')
    simp only [printInner, List.length_cons, List.length_append, List.length_singleton] at *
    omega

theorem len_printEntry (e : JKey × JFields) : e.2.length + 2 ≤ (printEntry e).length := by
  have := len_printInner e.2
  simp only [printEntry, List.length_cons, List.length_append] at *
  omega

theorem len_printEntries (m : JMdl) : needE m ≤ (printEntries m).length := by
  induction m with
  | nil => simp [printEntries, needE]
  | cons e m ih =>
    cases m with
    | nil =>
      have := len_printEntry e
      simp only [printEntries, needE, List.length_nil] at *
      omega
    | cons e2 m2 =>
      have h1 := len_printEntry e
      simp only [printEntries, needE, List.length_append, List.length_cons] at ih ⊢
      omega

theorem len_printMdl (m : JMdl) : needE m ≤ (printMdl m).length := by
  cases m with
  | nil => simp [printMdl, needE]
  | cons e m' =>
    have := len_printEntries (e :: m')
    simp only [printMdl, List.length_cons, List.length_append] at *
    omega

/-- Serialize-then-parse is the identity on well-formed metrics models. -/
theorem parseModel_stringify (m : JMdl) (h : WfMdl m) :
    parseModel (stringifyModel m) = some m := by
  have hwf : ∀ e ∈ m, KeyOk e.1 ∧ ∀ kv ∈ e.2, KeyOk kv.1 := by
    intro e he
    exact ⟨(h.1 e he).1.2.1, fun kv hkv => ((h.1 e he).2.2 kv hkv).2.1⟩
  rw [stringifyModel]
  unfold parseModel
  rw [show (String.mk (printMdl m)).data = printMdl m from rfl]
  have hfuel : needE m < (printMdl m).length + 1 := Nat.lt_succ_of_le (len_printMdl m)
  have hp := parseTop_rt m hwf ((printMdl m).length + 1) [] hfuel
  rw [List.append_nil] at hp
  rw [hp]
  simp [dropWs]

/-- Claim C9: the pipeline writes a pretty-printed serialization of the
parsed metrics model as the detailed JSON copy; re-parsing that copy yields
a model equal to the one obtained from the original summary file, because
serialize-then-parse is the identity on well-formed models. -/
theorem c9_detailed_json_roundtrip (m : JMdl) (hwf : WfMdl m) :
    parseModel (stringifyModel m) = some m :=
  parseModel_stringify m hwf

/-- Witness for C9 at a concrete metrics model. -/
theorem c9_detailed_json_roundtrip_witness :
    WfMdl mdlW ∧ parseModel (stringifyModel mdlW) = some mdlW :=
  ⟨by decide, c9_detailed_json_roundtrip mdlW (by decide)⟩
